import Mathlib

/-!
Verification of the authorization and access-control core of the pbc-red-forge
web platform, shallowly embedded in Lean from the server sources
(auth.service.ts, users.service.ts, users.repository.ts, articles.service.ts,
articles.repository.ts, articles.controller.ts, the auth middleware, and the
database seeding in the schema init module).

Rows of the relational store become structures, the store itself a record of
row lists, and every service function a pure function threading the store.
-/

namespace PbcRed

/-- Duck-typed error shape used across the server modules: a message plus an
HTTP status code (AuthError, UsersError, ArticlesError all have this shape). -/
structure SvcError where
  message : String
  statusCode : Nat
deriving Repr, DecidableEq

/-- Row of the `users` table (auth.repository UserRow). -/
structure UserRow where
  id : String
  username : String
  email : String
  passwordHash : String
  displayName : String
deriving Repr, DecidableEq

/-- Row of the `sessions` table (auth.repository SessionRow). Timestamps are
modelled as natural numbers (milliseconds since epoch). -/
structure SessionRow where
  id : String
  userId : String
  tokenHash : String
  expiresAt : Nat
deriving Repr, DecidableEq

/-- Row of the `user_groups` table. -/
structure GroupRow where
  id : Nat
  name : String
  displayName : String
deriving Repr, DecidableEq

/-- Row of the `user_rights` table. -/
structure RightRow where
  id : Nat
  name : String
deriving Repr, DecidableEq

/-- Row of the `user_group_rights` join table. -/
structure GroupRightRow where
  groupId : Nat
  rightId : Nat
deriving Repr, DecidableEq

/-- Row of the `user_group_membership` join table. -/
structure MembershipRow where
  userId : String
  groupId : Nat
  assignedBy : Option String
deriving Repr, DecidableEq

/-- Article status enum from articles.types.ts (`draft`/`published`/`private`;
the last is spelled `privateStatus` because `private` is a Lean keyword). -/
inductive ArticleStatus where
  | draft
  | published
  | privateStatus
deriving Repr, DecidableEq

/-- Row of the `articles` table (articles.repository ArticleRow), restricted to
the columns the verified claims touch. -/
structure ArticleRow where
  id : String
  authorId : String
  title : String
  slug : String
  headerImage : Option String
  excerpt : Option String
  content : String
  status : ArticleStatus
  views : Nat
  publishedAt : Option Nat
deriving Repr, DecidableEq

/-- The relational datastore: one list of rows per table. -/
structure DB where
  users : List UserRow
  sessions : List SessionRow
  groups : List GroupRow
  rights : List RightRow
  groupRights : List GroupRightRow
  memberships : List MembershipRow
  articles : List ArticleRow
deriving Repr, DecidableEq

/-- JavaScript Array.prototype.includes on string arrays. -/
def strIncludes (l : List String) (x : String) : Bool :=
  l.any (fun y => y == x)

/-- usersRepository.exists: `SELECT id FROM users WHERE id = ?`, nonempty. -/
def userExists (db : DB) (userId : String) : Bool :=
  db.users.any (fun u => u.id == userId)

/-- Membership test behind the rights join: does a membership row link this
user to this group. -/
def userInGroup (db : DB) (userId : String) (groupId : Nat) : Bool :=
  db.memberships.any (fun m => m.userId == userId && m.groupId == groupId)

/-- usersRepository.getUserGroups: names of groups joined through
`user_group_membership`. -/
def getUserGroups (db : DB) (userId : String) : List String :=
  (db.groups.filter (fun g => userInGroup db userId g.id)).map (fun g => g.name)

/-- usersRepository.getUserRights: `SELECT DISTINCT ur.name` joined through
`user_group_rights` and `user_group_membership`. -/
def getUserRights (db : DB) (userId : String) : List String :=
  ((db.rights.filter (fun r =>
    db.groupRights.any (fun gr => gr.rightId == r.id && userInGroup db userId gr.groupId))).map
    (fun r => r.name))

/-- usersRepository.getGroupsByNames: `SELECT id, name FROM user_groups WHERE
name IN (...)`. -/
def getGroupsByNames (db : DB) (names : List String) : List GroupRow :=
  db.groups.filter (fun g => strIncludes names g.name)

/-- usersRepository.removeAllGroupMemberships: `DELETE FROM
user_group_membership WHERE user_id = ?`. -/
def removeAllGroupMemberships (db : DB) (userId : String) : DB :=
  { db with memberships := db.memberships.filter (fun m => !(m.userId == userId)) }

/-- usersRepository.addUserToGroup: plain INSERT of one membership row. -/
def addUserToGroup (db : DB) (userId : String) (groupId : Nat) (assignedBy : String) : DB :=
  { db with memberships := db.memberships ++ [⟨userId, groupId, some assignedBy⟩] }

/-- JavaScript `Array.from(new Set(xs))`: deduplicate keeping first
occurrences. -/
def jsSetDedup (l : List String) : List String :=
  l.foldl (fun acc x => if strIncludes acc x then acc else acc ++ [x]) []

/-- usersService.updateUserGroups (users.service.ts): validates, then performs
a full membership replace. Returns the recomputed group names. -/
def updateUserGroups (db : DB) (targetUserId : String) (groups : List String)
    (adminId : String) : Except SvcError (List String × DB) :=
  if ¬ (userExists db targetUserId = true) then
    .error ⟨"User not found", 404⟩
  else if groups.isEmpty then
    .error ⟨"User must belong to at least one group", 400⟩
  else
    let uniqueGroups := jsSetDedup groups
    if ¬ (uniqueGroups.length = 1) then
      .error ⟨"User can belong to only one group", 400⟩
    else if targetUserId = adminId then
      .error ⟨"Administrators cannot change their own groups", 400⟩
    else
      let targetGroup := uniqueGroups.headD ""
      let validGroups := getGroupsByNames db [targetGroup]
      let db1 := removeAllGroupMemberships db targetUserId
      match validGroups.find? (fun g => g.name == targetGroup) with
      | some g =>
        let db2 := addUserToGroup db1 targetUserId g.id adminId
        .ok (getUserGroups db2 targetUserId, db2)
      | none => .ok (getUserGroups db1 targetUserId, db1)

/-- usersService.isAdmin (users.service.ts): the admin check used by the
PATCH /users/:id/groups route. -/
def usersServiceIsAdmin (db : DB) (userId : String) : Bool :=
  let rights := getUserRights db userId
  strIncludes rights "*" || strIncludes rights "manage_users" ||
    strIncludes rights "view_admin_panel"

/-- isAdmin from articles.service.ts: wildcard right only. -/
def articlesIsAdmin (db : DB) (userId : String) : Bool :=
  strIncludes (getUserRights db userId) "*"

/-- Renaming of every group row name by a function, leaving all other tables
untouched; used to state that an authorization check never consults group
names. -/
def renameGroups (db : DB) (f : String → String) : DB :=
  { db with groups := db.groups.map (fun g => { g with name := f g.name }) }

/-! ### Authorization middleware and the session store (middleware/auth.ts) -/

/-- The decoded payload a signed token carries: `{ userId, sessionId }`. -/
structure AuthPayload where
  userId : String
  sessionId : String
deriving Repr, DecidableEq

/-- Outcome of `jwt.verify` on the bearer credential of a request: header
absent, signature invalid (JsonWebTokenError), expiry claim in the past
(TokenExpiredError), or a verified payload. -/
inductive TokenCheck where
  | noHeader
  | sigInvalid
  | expired
  | valid (payload : AuthPayload)
deriving Repr, DecidableEq

/-- Observable outcome of a middleware run: an HTTP rejection, an attached
authenticated identity, or proceeding with no identity (optional mode). -/
inductive AuthOutcome where
  | reject (status : Nat)
  | authenticated (userId sessionId : String)
  | anonymous
deriving Repr, DecidableEq

/-- The session validity query of both middlewares: `SELECT * FROM sessions
WHERE id = ? AND user_id = ? AND expires_at > NOW()`, nonempty. -/
def sessionLive (db : DB) (sessionId userId : String) (now : Nat) : Bool :=
  db.sessions.any (fun s => s.id == sessionId && s.userId == userId && now < s.expiresAt)

/-- authMiddleware (mandatory mode). `storeUp = false` models the session
store query throwing (datastore unavailable); the catch block maps jwt errors
to 401 and anything else to 500. -/
def authMiddlewareRun (db : DB) (tc : TokenCheck) (now : Nat) (storeUp : Bool) : AuthOutcome :=
  match tc with
  | .noHeader => .reject 401
  | .sigInvalid => .reject 401
  | .expired => .reject 401
  | .valid p =>
    if storeUp then
      if sessionLive db p.sessionId p.userId now then .authenticated p.userId p.sessionId
      else .reject 401
    else .reject 500

/-- optionalAuthMiddleware: absence or invalidity of the token proceeds
anonymously, and the catch block swallows every error, the session store
throwing included. -/
def optionalAuthMiddlewareRun (db : DB) (tc : TokenCheck) (now : Nat) (storeUp : Bool) :
    AuthOutcome :=
  match tc with
  | .noHeader => .anonymous
  | .sigInvalid => .anonymous
  | .expired => .anonymous
  | .valid p =>
    if storeUp then
      if sessionLive db p.sessionId p.userId now then .authenticated p.userId p.sessionId
      else .anonymous
    else .anonymous

/-- Session mutations of the auth and users services: logout (delete one row
by id), logout-all (delete every row of a user), the password-change
revocation (delete every row of a user except the current session), and
session creation (login/register). -/
inductive SessionEvent where
  | logout (sessionId : String)
  | logoutAll (userId : String)
  | deleteOtherSessions (userId keep : String)
  | createSession (s : SessionRow)
deriving Repr, DecidableEq

/-- Effect of one session mutation on the store. -/
def applySessionEvent (db : DB) : SessionEvent → DB
  | .logout sid => { db with sessions := db.sessions.filter (fun s => !(s.id == sid)) }
  | .logoutAll uid => { db with sessions := db.sessions.filter (fun s => !(s.userId == uid)) }
  | .deleteOtherSessions uid keep =>
    { db with sessions := db.sessions.filter (fun s => !(s.userId == uid && !(s.id == keep))) }
  | .createSession s => { db with sessions := db.sessions ++ [s] }

/-- Folding a trace of session mutations over the store. -/
def applySessionEvents (db : DB) (es : List SessionEvent) : DB :=
  es.foldl applySessionEvent db

/-! ### Seed data (schema init module) -/

/-- ALL_RIGHTS from the schema init module, in source order. -/
def allRightsNames : List String :=
  ["create_content", "edit_own_content", "edit_any_content", "delete_own_content",
   "delete_any_content", "upload_files", "publish_content",
   "read_content", "comment", "like", "edit_own_profile",
   "manage_users", "manage_groups", "manage_rights", "view_admin_panel",
   "*"]

/-- DEFAULT_GROUPS from the schema init module: name, display name, rights. -/
def defaultGroupsSeed : List (String × String × List String) :=
  [("administrator", "Administrator", ["*"]),
   ("creator", "Creator",
    ["read_content", "comment", "like", "edit_own_profile", "create_content",
     "edit_own_content", "delete_own_content", "upload_files", "publish_content"]),
   ("user", "User", ["read_content", "comment", "like", "edit_own_profile"])]

/-- Seeded `user_rights` rows: AUTO_INCREMENT ids in insertion order. -/
def seededRights : List RightRow :=
  (List.range allRightsNames.length).map (fun i => ⟨i + 1, allRightsNames.getD i ""⟩)

/-- Seeded `user_groups` rows: AUTO_INCREMENT ids in insertion order. -/
def seededGroups : List GroupRow :=
  (List.range defaultGroupsSeed.length).map (fun i =>
    ⟨i + 1, (defaultGroupsSeed.getD i ("", "", [])).1, (defaultGroupsSeed.getD i ("", "", [])).2.1⟩)

/-- Seeded `user_group_rights` rows, mirroring the seeding loop: for each
default group look the group id up by name, then each right id up by name. -/
def seededGroupRights : List GroupRightRow :=
  defaultGroupsSeed.flatMap (fun entry =>
    match seededGroups.find? (fun g => g.name == entry.1) with
    | none => []
    | some g =>
      entry.2.2.filterMap (fun rname =>
        (seededRights.find? (fun r => r.name == rname)).map (fun r => ⟨g.id, r.id⟩)))

/-- The datastore right after first boot: schema created and seed data
applied, no users, sessions, memberships or articles yet. -/
def seedDB : DB :=
  { users := [], sessions := [], groups := seededGroups, rights := seededRights,
    groupRights := seededGroupRights, memberships := [], articles := [] }

/-! ### Authentication service (auth.service.ts) -/

/-- authRepository.existsByUsernameOrEmail: single OR query. -/
def existsByUsernameOrEmail (db : DB) (username email : String) : Bool :=
  db.users.any (fun u => u.username == username || u.email == email)

/-- authRepository.getGroupByName. -/
def getGroupByName (db : DB) (name : String) : Option GroupRow :=
  db.groups.find? (fun g => g.name == name)

/-- authRepository.assignUserToGroup: `INSERT IGNORE` into the membership
join table (no-op when the primary-key pair already exists). -/
def assignUserToGroup (db : DB) (userId : String) (groupId : Nat)
    (assignedBy : Option String) : DB :=
  if db.memberships.any (fun m => m.userId == userId && m.groupId == groupId) then db
  else { db with memberships := db.memberships ++ [⟨userId, groupId, assignedBy⟩] }

/-- authService.assignToGroup: look the group up by name, silently skip when
it does not exist. -/
def assignToGroup (db : DB) (userId : String) (groupName : String)
    (assignedBy : Option String) : DB :=
  match getGroupByName db groupName with
  | some g => assignUserToGroup db userId g.id assignedBy
  | none => db

/-- authService.register. Nondeterministic inputs of the implementation (the
fresh uuid for the user, the fresh session id, the token hash, the clock) are
passed as arguments. Returns the new user id with the updated store. -/
def register (db : DB) (username email passwordHash : String)
    (newUserId sessionId tokenHash : String) (now : Nat) :
    Except SvcError (String × DB) :=
  if existsByUsernameOrEmail db username email then
    .error ⟨"User with this username or email already exists", 400⟩
  else
    let isFirstUser := db.users.length = 0
    let db1 := { db with users := db.users ++ [⟨newUserId, username, email, passwordHash, username⟩] }
    let db2 :=
      if isFirstUser then assignToGroup db1 newUserId "administrator" none
      else assignToGroup db1 newUserId "user" none
    let db3 := { db2 with
      sessions := db2.sessions ++ [⟨sessionId, newUserId, tokenHash, now + 24 * 60 * 60 * 1000⟩] }
    .ok (newUserId, db3)

/-! ### Articles repository (articles.repository.ts) -/

/-- articlesRepository.findById. -/
def findArticleById (db : DB) (id : String) : Option ArticleRow :=
  db.articles.find? (fun a => a.id == id)

/-- articlesRepository.findBySlug. -/
def findArticleBySlug (db : DB) (slug : String) : Option ArticleRow :=
  db.articles.find? (fun a => a.slug == slug)

/-- articlesRepository.slugExists without an exclusion id (the create path). -/
def slugExists (db : DB) (slug : String) : Bool :=
  db.articles.any (fun a => a.slug == slug)

/-- articlesRepository.incrementViews: `UPDATE articles SET views =
COALESCE(views, 0) + 1 WHERE id = ?`. -/
def incrementViews (db : DB) (id : String) : DB :=
  { db with articles := db.articles.map (fun a =>
      if a.id == id then { a with views := a.views + 1 } else a) }

/-- Partial update payload of articlesRepository.update; a `none` field is
absent from the SET clause. The nullable text columns carry an inner Option. -/
structure ArticleUpdateData where
  title : Option String := none
  slug : Option String := none
  headerImage : Option (Option String) := none
  excerpt : Option (Option String) := none
  content : Option String := none
  status : Option ArticleStatus := none
deriving Repr, DecidableEq

/-- Effect of articlesRepository.update on one row: each present field is
overwritten, and a status set to published additionally executes
`published_at = COALESCE(published_at, NOW())`. -/
def articleApplyUpdate (a : ArticleRow) (d : ArticleUpdateData) (now : Nat) : ArticleRow :=
  { a with
    title := d.title.getD a.title
    slug := d.slug.getD a.slug
    headerImage := d.headerImage.getD a.headerImage
    excerpt := d.excerpt.getD a.excerpt
    content := d.content.getD a.content
    status := d.status.getD a.status
    publishedAt :=
      if d.status = some ArticleStatus.published then a.publishedAt.orElse (fun _ => some now)
      else a.publishedAt }

/-- articlesRepository.update: apply the partial update to the row with the
given id. -/
def repoUpdateArticle (db : DB) (id : String) (d : ArticleUpdateData) (now : Nat) : DB :=
  { db with articles := db.articles.map (fun a =>
      if a.id == id then articleApplyUpdate a d now else a) }

/-- articlesRepository.create: `published_at` is stamped at insertion time
exactly when the initial status is published. -/
def repoCreateArticle (db : DB) (id authorId title slug : String)
    (headerImage excerpt : Option String) (content : String) (status : ArticleStatus)
    (now : Nat) : DB :=
  let publishedAt := if status = ArticleStatus.published then some now else none
  { db with articles := db.articles ++
      [⟨id, authorId, title, slug, headerImage, excerpt, content, status, 0, publishedAt⟩] }

/-! ### Slug generation (articles.service.ts) -/

/-- JavaScript regex class `\w` restricted to ASCII: letters, digits,
underscore. -/
def jsIsWordChar (c : Char) : Bool :=
  c.isAlpha || c.isDigit || c == '_'

/-- JavaScript regex class `\s` restricted to ASCII. -/
def jsIsSpaceChar (c : Char) : Bool :=
  c == ' ' || c == '\t' || c == '\n' || c == '\r' || c == '\x0b' || c == '\x0c'

/-- Global replace of every maximal whitespace run by a single hyphen
(`.replace(/\s+/g, '-')`); the flag records whether the previous character
belonged to a run. -/
def replaceSpaceRuns : Bool → List Char → List Char
  | _, [] => []
  | inRun, c :: cs =>
    if jsIsSpaceChar c then
      (if inRun then [] else ['-']) ++ replaceSpaceRuns true cs
    else c :: replaceSpaceRuns false cs

/-- Global replace of every maximal hyphen run by a single hyphen (the
regex replace of one-or-more hyphens, global flag). -/
def collapseHyphenRuns : Bool → List Char → List Char
  | _, [] => []
  | inRun, c :: cs =>
    if c == '-' then
      (if inRun then [] else ['-']) ++ collapseHyphenRuns true cs
    else c :: collapseHyphenRuns false cs

/-- JavaScript String.prototype.trim. -/
def jsTrim (l : List Char) : List Char :=
  ((l.dropWhile jsIsSpaceChar).reverse.dropWhile jsIsSpaceChar).reverse

/-- generateSlug: lowercase, strip characters outside `\w`, `\s` and hyphen,
replace whitespace runs with hyphens, collapse hyphen runs, trim, truncate to
100 characters. -/
def generateSlug (title : String) : String :=
  ⟨(jsTrim (collapseHyphenRuns false (replaceSpaceRuns false
    ((title.data.map Char.toLower).filter
      (fun c => jsIsWordChar c || jsIsSpaceChar c || c == '-'))))).take 100⟩

/-- The k-th candidate the uniqueness loop examines: the base slug itself,
then `base-1`, `base-2`, and so on. -/
def slugCandidate (base : String) (k : Nat) : String :=
  if k = 0 then base else base ++ "-" ++ toString k

/-- The body of ensureUniqueSlug as fuelled recursion; the source loops
`while (await slugExists(slug))` bumping a counter, and the fuel chosen below
provably suffices. -/
def ensureUniqueSlugGo (db : DB) (base : String) : Nat → Nat → String
  | 0, k => slugCandidate base k
  | fuel + 1, k =>
    if slugExists db (slugCandidate base k) then ensureUniqueSlugGo db base fuel (k + 1)
    else slugCandidate base k

/-- ensureUniqueSlug: first candidate in the order `base`, `base-1`, `base-2`,
... that no stored article carries. -/
def ensureUniqueSlug (db : DB) (base : String) : String :=
  ensureUniqueSlugGo db base (db.articles.length + 1) 0

/-! ### Articles service and controller -/

/-- canCreateArticles: wildcard or the dedicated content right. -/
def canCreateArticles (db : DB) (userId : String) : Bool :=
  let rights := getUserRights db userId
  strIncludes rights "*" || strIncludes rights "create_content"

/-- The slice of the article response relevant to the claims. -/
structure ArticleResponse where
  id : String
  slug : String
  status : ArticleStatus
  views : Nat
  authorId : String
  publishedAt : Option Nat
deriving Repr, DecidableEq

/-- Assemble the response for a row, with an explicitly reported view count
(getBySlug reports `baseViews + 1` when it increments). -/
def mkArticleResponse (a : ArticleRow) (views : Nat) : ArticleResponse :=
  ⟨a.id, a.slug, a.status, views, a.authorId, a.publishedAt⟩

/-- articlesService.getById: visibility check, never touches the view
counter. -/
def serviceGetById (db : DB) (articleId : String) (requesterId : Option String) :
    Option ArticleResponse × DB :=
  match findArticleById db articleId with
  | none => (none, db)
  | some a =>
    let userIsAdmin := match requesterId with | some r => articlesIsAdmin db r | none => false
    if a.status = ArticleStatus.published then (some (mkArticleResponse a a.views), db)
    else
      match requesterId with
      | none => (none, db)
      | some r =>
        if ¬ a.authorId = r ∧ userIsAdmin = false then (none, db)
        else (some (mkArticleResponse a a.views), db)

/-- articlesService.getBySlug: same visibility check, then increments the
view counter when the article is published and the requester is not its
author (and the incrementViews flag, true on the controller path, is set). -/
def serviceGetBySlug (db : DB) (slug : String) (requesterId : Option String)
    (incViews : Bool) : Option ArticleResponse × DB :=
  match findArticleBySlug db slug with
  | none => (none, db)
  | some a =>
    let userIsAdmin := match requesterId with | some r => articlesIsAdmin db r | none => false
    let proceed : Unit → Option ArticleResponse × DB := fun _ =>
      let shouldIncrement := incViews && decide (a.status = ArticleStatus.published)
        && decide (¬ requesterId = some a.authorId)
      let db2 := if shouldIncrement then incrementViews db a.id else db
      (some (mkArticleResponse a (a.views + (if shouldIncrement then 1 else 0))), db2)
    if a.status = ArticleStatus.published then proceed ()
    else
      match requesterId with
      | none => (none, db)
      | some r =>
        if ¬ a.authorId = r ∧ userIsAdmin = false then (none, db)
        else proceed ()

/-- ASCII hexadecimal digit. -/
def isHexDigitChar (c : Char) : Bool :=
  c.isDigit || ('a' ≤ c && c ≤ 'f') || ('A' ≤ c && c ≤ 'F')

/-- The uuid regex of the GET /articles/:idOrSlug handler: 8-4-4-4-12
hexadecimal groups separated by hyphens. -/
def isUuidFormat (s : String) : Bool :=
  s.data.length == 36 &&
  (List.range 36).all (fun i =>
    let c := s.data.getD i ' '
    if i == 8 || i == 13 || i == 18 || i == 23 then c == '-' else isHexDigitChar c)

/-- GET /articles/:idOrSlug: dispatch on the uuid shape of the parameter; the
slug path passes incrementViews = true (its default). -/
def controllerGetArticle (db : DB) (idOrSlug : String) (requesterId : Option String) :
    Option ArticleResponse × DB :=
  if isUuidFormat idOrSlug then serviceGetById db idOrSlug requesterId
  else serviceGetBySlug db idOrSlug requesterId true

/-- Caller-supplied creation payload (createArticleSchema after validation;
status defaults to draft). -/
structure CreateArticleInput where
  title : String
  slug : Option String := none
  headerImage : Option String := none
  excerpt : Option String := none
  content : String
  status : Option ArticleStatus := none
deriving Repr, DecidableEq

/-- articlesService.create: permission gate, slug derivation (the JS
`input.slug || generateSlug(input.title)` treats an empty string as absent),
uniqueness loop, insert, and a re-read of the stored row. -/
def serviceCreateArticle (db : DB) (userId : String) (input : CreateArticleInput)
    (newId : String) (now : Nat) : Except SvcError (ArticleResponse × DB) :=
  if ¬ canCreateArticles db userId = true then
    .error ⟨"You do not have permission to create articles", 403⟩
  else
    let base := match input.slug with
      | some s => if s = "" then generateSlug input.title else s
      | none => generateSlug input.title
    let slug := ensureUniqueSlug db base
    let status := input.status.getD ArticleStatus.draft
    let db1 := repoCreateArticle db newId userId input.title slug input.headerImage
      input.excerpt input.content status now
    match (serviceGetById db1 newId (some userId)).1 with
    | some resp => .ok (resp, db1)
    | none => .error ⟨"Failed to create article", 500⟩

/-- Transformation replacing every stored session token hash (as a function
of the session id), leaving everything else identical; used to state that
authorization outcomes never read the hash. -/
def setTokenHashes (db : DB) (f : String → String) : DB :=
  { db with sessions := db.sessions.map (fun s => { s with tokenHash := f s.id }) }

/-! ### Concrete stores and helper values used by the theorems below -/

/-- Store with one live session, used to exhibit the optional-mode failure of
claim C7. -/
def dbStoreDown : DB :=
  { seedDB with
    users := [⟨"u1", "alice", "alice@example.com", "h", "alice"⟩]
    sessions := [⟨"s1", "u1", "th", 100⟩] }

/-- No stored session carries the revoked (sessionId, userId) pair. -/
def NoLivePair (db : DB) (sid uid : String) : Prop :=
  ∀ s ∈ db.sessions, ¬ (s.id = sid ∧ s.userId = uid)

/-- Store with one live session for the revocation witness. -/
def dbSessionW : DB :=
  { seedDB with
    users := [⟨"u1", "alice", "alice@example.com", "h", "alice"⟩]
    sessions := [⟨"s1", "u1", "th", 100⟩] }

/-- Store with a single administrator for the self-change claim. -/
def dbSelf : DB :=
  { seedDB with
    users := [⟨"a", "admin", "admin@example.com", "h", "admin"⟩]
    memberships := [⟨"a", 1, none⟩] }

/-- Store where one user holds manage_users but not the wildcard. -/
def dbManageOnly : DB :=
  { users := [⟨"m", "mod", "mod@example.com", "h", "mod"⟩]
    sessions := []
    groups := [⟨1, "staff", "Staff"⟩]
    rights := [⟨1, "manage_users"⟩]
    groupRights := [⟨1, 1⟩]
    memberships := [⟨"m", 1, none⟩]
    articles := [] }

/-- Store with an administrator and a plain user for the group-exclusivity
witness. -/
def dbTwoUsers : DB :=
  { seedDB with
    users := [⟨"a", "admin", "admin@example.com", "h", "admin"⟩,
      ⟨"u", "bob", "bob@example.com", "h", "bob"⟩]
    memberships := [⟨"a", 1, none⟩, ⟨"u", 3, none⟩] }

/-- Store where the membership-replace target is sent to a group name that
does not exist. -/
def dbGhost : DB :=
  { seedDB with
    users := [⟨"a", "admin", "admin@example.com", "h", "admin"⟩,
      ⟨"u", "bob", "bob@example.com", "h", "bob"⟩]
    memberships := [⟨"u", 3, none⟩] }

/-- A published article, its author and a distinct reader, for the
view-counting claim. -/
def rowView : ArticleRow :=
  ⟨"11111111-1111-1111-1111-111111111111", "w", "T", "hello", none, none, "c",
    ArticleStatus.published, 0, some 1⟩

/-- Store holding that article. -/
def dbView : DB :=
  { seedDB with
    users := [⟨"w", "writer", "w@example.com", "h", "w"⟩,
      ⟨"r", "reader", "r@example.com", "h", "r"⟩]
    articles := [rowView] }

/-- Store contents after the first registration: one user, one session, one
membership in the administrator group. -/
def regDB1 (u1 e1 p1 id1 s1 t1 : String) (n1 : Nat) : DB :=
  { users := [⟨id1, u1, e1, p1, u1⟩]
    sessions := [⟨s1, id1, t1, n1 + 24 * 60 * 60 * 1000⟩]
    groups := seededGroups
    rights := seededRights
    groupRights := seededGroupRights
    memberships := [⟨id1, 1, none⟩]
    articles := [] }

/-- Store contents after the second registration: the second user joined the
default user group. -/
def regDB2 (u1 e1 p1 id1 s1 t1 : String) (n1 : Nat)
    (u2 e2 p2 id2 s2 t2 : String) (n2 : Nat) : DB :=
  { users := [⟨id1, u1, e1, p1, u1⟩, ⟨id2, u2, e2, p2, u2⟩]
    sessions := [⟨s1, id1, t1, n1 + 24 * 60 * 60 * 1000⟩,
      ⟨s2, id2, t2, n2 + 24 * 60 * 60 * 1000⟩]
    groups := seededGroups
    rights := seededRights
    groupRights := seededGroupRights
    memberships := [⟨id1, 1, none⟩, ⟨id2, 3, none⟩]
    articles := [] }

/-- Decimal digits of a natural number, most significant first, as produced
by the standard printer. -/
def natChars (n : Nat) : List Char :=
  if n < 10 then [Nat.digitChar n]
  else natChars (n / 10) ++ [Nat.digitChar (n % 10)]
decreasing_by exact Nat.div_lt_self (by omega) (by omega)

/-- The article row the create path inserts. -/
def createdRow (userId : String) (input : CreateArticleInput) (newId : String)
    (slug : String) (now : Nat) : ArticleRow :=
  ⟨newId, userId, input.title, slug, input.headerImage, input.excerpt, input.content,
    input.status.getD ArticleStatus.draft, 0,
    if input.status.getD ArticleStatus.draft = ArticleStatus.published then some now
    else none⟩

/-- Store with a creator-group user for the slug witness. -/
def dbCreator : DB :=
  { seedDB with
    users := [⟨"b", "bob", "bob@example.com", "h", "b"⟩]
    memberships := [⟨"b", 2, none⟩] }

/-- The creation payload of the slug witness: a plain titled article with no
caller-supplied slug. -/
def articleInput : CreateArticleInput :=
  { title := "Hello World", content := "c" }

/-! ## Shared lemmas -/

theorem strIncludes_iff {l : List String} {x : String} :
    strIncludes l x = true ↔ x ∈ l := by
  simp [strIncludes, List.any_eq_true, beq_iff_eq]

theorem sessionLive_setTokenHashes (db : DB) (f : String → String)
    (sid uid : String) (now : Nat) :
    sessionLive (setTokenHashes db f) sid uid now = sessionLive db sid uid now := by
  simp only [sessionLive, setTokenHashes, List.any_map]
  rfl

/-! ## Claims -/

/-- Claim C8: published_at is stamped on the first transition to published
(or at creation when the initial status is published), and every later status
update, including moving away from published and back, leaves an existing
non-null published_at unchanged while other fields may change. -/
theorem publishedAt_set_once (a : ArticleRow) (d : ArticleUpdateData) (now : Nat)
    (db : DB) (id authorId title slug : String) (hi ex : Option String)
    (content : String) (st : ArticleStatus) :
    (∀ t, a.publishedAt = some t → (articleApplyUpdate a d now).publishedAt = some t) ∧
    (a.publishedAt = none → d.status = some ArticleStatus.published →
      (articleApplyUpdate a d now).publishedAt = some now) ∧
    (d.status = none → (articleApplyUpdate a d now).publishedAt = a.publishedAt) ∧
    ((repoCreateArticle db id authorId title slug hi ex content st now).articles =
      db.articles ++ [⟨id, authorId, title, slug, hi, ex, content, st, 0,
        if st = ArticleStatus.published then some now else none⟩]) := by
  refine ⟨?_, ?_, ?_, rfl⟩
  · intro t ht
    simp only [articleApplyUpdate, ht]
    split <;> simp [Option.orElse]
  · intro hnone hst
    simp [articleApplyUpdate, hnone, hst, Option.orElse]
  · intro hst
    simp [articleApplyUpdate, hst]

theorem publishedAt_set_once_witness :
    ((⟨"a1", "u1", "T", "t", none, none, "c", ArticleStatus.published, 0,
        some 5⟩ : ArticleRow).publishedAt = some 5 ∧
      (articleApplyUpdate
        ⟨"a1", "u1", "T", "t", none, none, "c", ArticleStatus.published, 0, some 5⟩
        { status := some ArticleStatus.draft } 9).publishedAt = some 5) ∧
    (articleApplyUpdate
      ⟨"a1", "u1", "T", "t", none, none, "c", ArticleStatus.draft, 0, none⟩
      { status := some ArticleStatus.published } 9).publishedAt = some 9 := by
  refine ⟨⟨rfl, ?_⟩, ?_⟩
  · exact (publishedAt_set_once
      ⟨"a1", "u1", "T", "t", none, none, "c", ArticleStatus.published, 0, some 5⟩
      { status := some ArticleStatus.draft } 9 seedDB "" "" "" "" none none ""
      ArticleStatus.draft).1 5 rfl
  · exact (publishedAt_set_once
      ⟨"a1", "u1", "T", "t", none, none, "c", ArticleStatus.draft, 0, none⟩
      { status := some ArticleStatus.published } 9 seedDB "" "" "" "" none none ""
      ArticleStatus.draft).2.1 rfl rfl

/-- Claim C10: the stored token hash is never read by an authorization
decision; two stores differing only in session token hashes yield identical
middleware outcomes for every request, in both modes. -/
theorem tokenHash_noninterference (db : DB) (f : String → String) (tc : TokenCheck)
    (now : Nat) (storeUp : Bool) (s : SessionRow) :
    authMiddlewareRun (setTokenHashes db f) tc now storeUp =
      authMiddlewareRun db tc now storeUp ∧
    optionalAuthMiddlewareRun (setTokenHashes db f) tc now storeUp =
      optionalAuthMiddlewareRun db tc now storeUp ∧
    (applySessionEvent db (.createSession s)).sessions = db.sessions ++ [s] := by
  refine ⟨?_, ?_, rfl⟩ <;>
    cases tc <;>
      simp [authMiddlewareRun, optionalAuthMiddlewareRun, sessionLive_setTokenHashes]

/-- Claim C7 (amended): in the mandatory middleware a session-store failure
surfaces as 500, never as the 401 of a missing or invalid credential; in the
optional middleware, however, the catch block swallows the store failure and
the request proceeds with no identity, exactly like a request with no
credential at all. -/
theorem storeDown_outcomes (db : DB) (p : AuthPayload) (now : Nat) :
    authMiddlewareRun db (.valid p) now false = .reject 500 ∧
    authMiddlewareRun db .noHeader now true = .reject 401 ∧
    authMiddlewareRun db (.sigInvalid) now true = .reject 401 ∧
    optionalAuthMiddlewareRun db (.valid p) now false = .anonymous ∧
    optionalAuthMiddlewareRun db .noHeader now true = .anonymous := by
  exact ⟨rfl, rfl, rfl, rfl, rfl⟩

/-- Claim C7 counterexample: with a live session in the store, the optional
middleware maps a store failure to the very same outcome as an absent
credential (anonymous), even though the same token authenticates when the
store is up; so a down store is indistinguishable from not logged in, contrary
to the claim. -/
theorem storeDown_optional_counterexample :
    optionalAuthMiddlewareRun dbStoreDown (.valid ⟨"u1", "s1"⟩) 0 false =
      optionalAuthMiddlewareRun dbStoreDown .noHeader 0 true ∧
    optionalAuthMiddlewareRun dbStoreDown (.valid ⟨"u1", "s1"⟩) 0 true =
      .authenticated "u1" "s1" := by
  exact ⟨rfl, by decide⟩

theorem sessionLive_eq_false_of_noLivePair {db : DB} {sid uid : String} {now : Nat}
    (h : NoLivePair db sid uid) : sessionLive db sid uid now = false := by
  rw [sessionLive]
  rw [List.any_eq_false]
  intro s hs
  have := h s hs
  simp only [Bool.and_eq_true, beq_iff_eq, decide_eq_true_eq, not_and]
  intro h1 _
  exact absurd h1 this

theorem noLivePair_applySessionEvent {db : DB} {sid uid : String}
    (h : NoLivePair db sid uid) (e : SessionEvent)
    (hc : ∀ s, e = .createSession s → ¬ (s.id = sid ∧ s.userId = uid)) :
    NoLivePair (applySessionEvent db e) sid uid := by
  cases e with
  | logout x =>
    intro s hs
    exact h s (List.mem_of_mem_filter hs)
  | logoutAll x =>
    intro s hs
    exact h s (List.mem_of_mem_filter hs)
  | deleteOtherSessions x keep =>
    intro s hs
    exact h s (List.mem_of_mem_filter hs)
  | createSession srow =>
    intro s hs
    rcases List.mem_append.mp hs with hold | hnew
    · exact h s hold
    · rcases List.mem_singleton.mp hnew with rfl
      exact hc s rfl

theorem noLivePair_applySessionEvents {sid uid : String} :
    ∀ (es : List SessionEvent) (db : DB), NoLivePair db sid uid →
    (∀ s, SessionEvent.createSession s ∈ es → ¬ (s.id = sid ∧ s.userId = uid)) →
    NoLivePair (applySessionEvents db es) sid uid := by
  intro es
  induction es with
  | nil => intro db h _; exact h
  | cons e rest ih =>
    intro db h hc
    have h1 : NoLivePair (applySessionEvent db e) sid uid := by
      refine noLivePair_applySessionEvent h e ?_
      intro s he
      exact hc s (by rw [← he] at *; exact List.mem_cons_self _ _)
    exact ih (applySessionEvent db e) h1 (fun s hs => hc s (List.mem_cons_of_mem _ hs))

theorem noLivePair_after_logout (db : DB) (sid uid : String) :
    NoLivePair (applySessionEvent db (.logout sid)) sid uid := by
  intro s hs
  have := (List.mem_filter.mp hs).2
  simp only [Bool.not_eq_true', beq_eq_false_iff_ne, ne_eq] at this
  intro hp
  exact this hp.1

theorem noLivePair_after_logoutAll (db : DB) (sid uid : String) :
    NoLivePair (applySessionEvent db (.logoutAll uid)) sid uid := by
  intro s hs
  have := (List.mem_filter.mp hs).2
  simp only [Bool.not_eq_true', beq_eq_false_iff_ne, ne_eq] at this
  intro hp
  exact this hp.2

theorem noLivePair_after_deleteOther (db : DB) (sid uid keep : String)
    (hk : ¬ keep = sid) :
    NoLivePair (applySessionEvent db (.deleteOtherSessions uid keep)) sid uid := by
  intro s hs hp
  have hf := (List.mem_filter.mp hs).2
  rcases hp with ⟨h1, h2⟩
  have huid : (s.userId == uid) = true := by rw [beq_iff_eq]; exact h2
  rw [huid] at hf
  simp only [Bool.true_and, Bool.not_not, beq_iff_eq] at hf
  exact hk (hf.symm.trans h1)

/-- Claim C5: the mandatory middleware accepts a signature-valid, unexpired
token exactly when a session row for its embedded (sessionId, userId) pair
still exists with a future expiry; and after Logout of that session, after
LogoutAll of that user, or after a password change that deleted that row,
the same token is rejected 401 on every subsequent check, across any further
trace of session mutations whose created sessions carry fresh ids. -/
theorem session_revocation (db : DB) (sid uid : String) (now : Nat)
    (es : List SessionEvent)
    (hfresh : ∀ s, SessionEvent.createSession s ∈ es → ¬ (s.id = sid ∧ s.userId = uid)) :
    (authMiddlewareRun db (.valid ⟨uid, sid⟩) now true = .authenticated uid sid ↔
      sessionLive db sid uid now = true) ∧
    authMiddlewareRun (applySessionEvents (applySessionEvent db (.logout sid)) es)
      (.valid ⟨uid, sid⟩) now true = .reject 401 ∧
    authMiddlewareRun (applySessionEvents (applySessionEvent db (.logoutAll uid)) es)
      (.valid ⟨uid, sid⟩) now true = .reject 401 ∧
    (∀ keep, ¬ keep = sid →
      authMiddlewareRun
        (applySessionEvents (applySessionEvent db (.deleteOtherSessions uid keep)) es)
        (.valid ⟨uid, sid⟩) now true = .reject 401) := by
  have reject : ∀ db2 : DB, NoLivePair db2 sid uid →
      authMiddlewareRun db2 (.valid ⟨uid, sid⟩) now true = .reject 401 := by
    intro db2 h2
    simp [authMiddlewareRun, sessionLive_eq_false_of_noLivePair h2]
  refine ⟨?_, ?_, ?_, ?_⟩
  · constructor
    · intro h
      cases hl : sessionLive db sid uid now
      · rw [authMiddlewareRun] at h
        simp [hl] at h
      · rfl
    · intro h
      simp [authMiddlewareRun, h]
  · exact reject _ (noLivePair_applySessionEvents es _ (noLivePair_after_logout db sid uid) hfresh)
  · exact reject _ (noLivePair_applySessionEvents es _ (noLivePair_after_logoutAll db sid uid) hfresh)
  · intro keep hk
    exact reject _
      (noLivePair_applySessionEvents es _ (noLivePair_after_deleteOther db sid uid keep hk) hfresh)

theorem session_revocation_witness :
    (∀ s, SessionEvent.createSession s ∈
        [SessionEvent.createSession ⟨"s2", "u1", "th2", 200⟩] →
      ¬ (s.id = "s1" ∧ s.userId = "u1")) ∧
    ((authMiddlewareRun dbSessionW (.valid ⟨"u1", "s1"⟩) 0 true =
        .authenticated "u1" "s1" ↔ sessionLive dbSessionW "s1" "u1" 0 = true) ∧
      authMiddlewareRun
        (applySessionEvents (applySessionEvent dbSessionW (.logout "s1"))
          [SessionEvent.createSession ⟨"s2", "u1", "th2", 200⟩])
        (.valid ⟨"u1", "s1"⟩) 0 true = .reject 401 ∧
      authMiddlewareRun
        (applySessionEvents (applySessionEvent dbSessionW (.logoutAll "u1"))
          [SessionEvent.createSession ⟨"s2", "u1", "th2", 200⟩])
        (.valid ⟨"u1", "s1"⟩) 0 true = .reject 401 ∧
      (∀ keep, ¬ keep = "s1" →
        authMiddlewareRun
          (applySessionEvents
            (applySessionEvent dbSessionW (.deleteOtherSessions "u1" keep))
            [SessionEvent.createSession ⟨"s2", "u1", "th2", 200⟩])
          (.valid ⟨"u1", "s1"⟩) 0 true = .reject 401)) := by
  have hfresh : ∀ s, SessionEvent.createSession s ∈
      [SessionEvent.createSession ⟨"s2", "u1", "th2", 200⟩] →
      ¬ (s.id = "s1" ∧ s.userId = "u1") := by
    intro s hs
    rcases List.mem_singleton.mp hs with h
    cases h
    decide
  exact ⟨hfresh, session_revocation dbSessionW "s1" "u1" 0
    [SessionEvent.createSession ⟨"s2", "u1", "th2", 200⟩] hfresh⟩

/-- Claim C1 (amended): an acting administrator targeting their own account
always fails, regardless of the groups list, but the error is reported as
BadRequest (status 400), not Forbidden (403): the self-change guard in
updateUserGroups throws a 400, and the empty and multi-group guards that may
fire first are 400 as well. -/
theorem updateUserGroups_self_always_fails_400 (db : DB) (a : String) (gs : List String)
    (h : userExists db a = true) :
    ∃ e, updateUserGroups db a gs a = .error e ∧ e.statusCode = 400 := by
  rw [updateUserGroups]
  rw [if_neg (by simp [h])]
  by_cases hgs : gs.isEmpty
  · rw [if_pos hgs]
    exact ⟨_, rfl, rfl⟩
  · rw [if_neg hgs]
    by_cases hlen : (jsSetDedup gs).length = 1
    · rw [if_neg (by simp [hlen])]
      rw [if_pos rfl]
      exact ⟨_, rfl, rfl⟩
    · rw [if_pos (by simp [hlen])]
      exact ⟨_, rfl, rfl⟩

theorem updateUserGroups_self_always_fails_400_witness :
    userExists dbSelf "a" = true ∧
    ∃ e, updateUserGroups dbSelf "a" ["creator"] "a" = .error e ∧ e.statusCode = 400 := by
  exact ⟨by decide, updateUserGroups_self_always_fails_400 dbSelf "a" ["creator"] (by decide)⟩

/-- Claim C1 counterexample: a self-targeting call with a perfectly valid
single group fails with status code 400 (BadRequest), not the claimed 403
(Forbidden). -/
theorem updateUserGroups_self_not_403 :
    updateUserGroups dbSelf "a" ["creator"] "a" =
      .error ⟨"Administrators cannot change their own groups", 400⟩ ∧
    (400 : Nat) ≠ 403 := by
  exact ⟨rfl, by decide⟩

/-- Claim C2 (amended): the admin check guarding group-membership
administration (usersService.isAdmin) returns true exactly when the effective
rights contain the wildcard, manage_users, or view_admin_panel — not only the
wildcard — and it never consults group names (renaming every group leaves the
check unchanged). -/
theorem usersServiceIsAdmin_characterization (db : DB) (userId : String)
    (f : String → String) :
    (usersServiceIsAdmin db userId = true ↔
      ("*" ∈ getUserRights db userId ∨ "manage_users" ∈ getUserRights db userId ∨
        "view_admin_panel" ∈ getUserRights db userId)) ∧
    usersServiceIsAdmin (renameGroups db f) userId = usersServiceIsAdmin db userId := by
  constructor
  · rw [usersServiceIsAdmin]
    simp only [Bool.or_eq_true, strIncludes_iff, or_assoc]
  · rfl

/-- Claim C2 counterexample: a user whose effective rights are exactly
manage_users (no wildcard) passes the usersService.isAdmin check, so the check
is not equivalent to holding the wildcard. -/
theorem usersServiceIsAdmin_not_wildcard_only :
    usersServiceIsAdmin dbManageOnly "m" = true ∧
    strIncludes (getUserRights dbManageOnly "m") "*" = false := by
  exact ⟨by decide, by decide⟩

theorem userInGroup_replace (db : DB) (u : String) (newGid gid : Nat) (admin : String) :
    userInGroup (addUserToGroup (removeAllGroupMemberships db u) u newGid admin) u gid
      = (newGid == gid) := by
  simp only [userInGroup, addUserToGroup, removeAllGroupMemberships, List.any_append]
  have h1 : (db.memberships.filter (fun m => !(m.userId == u))).any
      (fun m => m.userId == u && m.groupId == gid) = false := by
    rw [List.any_eq_false]
    intro m hm
    have hf := (List.mem_filter.mp hm).2
    simp only [Bool.not_eq_true'] at hf
    simp [hf]
  rw [h1]
  simp

/-- Claim C3 (amended): for an existing target distinct from the acting
admin, an empty groups list fails 400, a two-distinct-names list fails 400,
and a singleton list naming an existing group succeeds with the subsequent
read showing exactly that group; the amendment is that the named group must
exist — updateUserGroups with an unknown group name succeeds while silently
leaving the user with no groups at all. -/
theorem updateUserGroups_group_exclusivity (db : DB) (u g g1 g2 admin : String)
    (hnodup : (db.groups.map GroupRow.id).Nodup)
    (hu : userExists db u = true)
    (hne : ¬ u = admin)
    (hg : ∃ grp ∈ db.groups, grp.name = g)
    (h12 : ¬ g1 = g2) :
    (∃ e, updateUserGroups db u [] admin = .error e ∧ e.statusCode = 400) ∧
    (∃ e, updateUserGroups db u [g1, g2] admin = .error e ∧ e.statusCode = 400) ∧
    (∃ db2, updateUserGroups db u [g] admin = .ok (getUserGroups db2 u, db2) ∧
      ∀ x, x ∈ getUserGroups db2 u ↔ x = g) := by
  refine ⟨?_, ?_, ?_⟩
  · rw [updateUserGroups]
    rw [if_neg (by simp [hu])]
    exact ⟨_, rfl, rfl⟩
  · have hb : (g1 == g2) = false := beq_eq_false_iff_ne.mpr h12
    have hb2 : ¬ g2 = g1 := fun hh => h12 hh.symm
    have hdedup : jsSetDedup [g1, g2] = [g1, g2] := by
      simp [jsSetDedup, strIncludes, hb, hb2]
    rw [updateUserGroups]
    rw [if_neg (by simp [hu])]
    rw [if_neg (by simp)]
    simp only [hdedup]
    rw [if_pos (by simp)]
    exact ⟨_, rfl, rfl⟩
  · obtain ⟨grp0, hmem0, hname0⟩ := hg
    have hmemF : grp0 ∈ getGroupsByNames db [g] := by
      rw [getGroupsByNames]
      refine List.mem_filter.mpr ⟨hmem0, ?_⟩
      simp [strIncludes, hname0]
    have hsome : ((getGroupsByNames db [g]).find? (fun x => x.name == g)).isSome := by
      rw [List.find?_isSome]
      exact ⟨grp0, hmemF, by simp [hname0]⟩
    obtain ⟨grp1, hfind⟩ := Option.isSome_iff_exists.mp hsome
    have hname1 : grp1.name = g := by
      have := List.find?_some hfind
      simpa using this
    have hmem1 : grp1 ∈ db.groups :=
      (List.mem_filter.mp (List.mem_of_find?_eq_some hfind)).1
    refine ⟨addUserToGroup (removeAllGroupMemberships db u) u grp1.id admin, ?_, ?_⟩
    · have step : updateUserGroups db u [g] admin =
          (if u = admin then
            Except.error ⟨"Administrators cannot change their own groups", 400⟩
          else
            match List.find? (fun x => x.name == g) (getGroupsByNames db [g]) with
            | some grow =>
              Except.ok (getUserGroups
                  (addUserToGroup (removeAllGroupMemberships db u) u grow.id admin) u,
                addUserToGroup (removeAllGroupMemberships db u) u grow.id admin)
            | none =>
              Except.ok (getUserGroups (removeAllGroupMemberships db u) u,
                removeAllGroupMemberships db u)) := by
        rw [updateUserGroups]
        exact if_neg (by simp [hu])
      rw [step]
      rw [if_neg hne]
      rw [hfind]
    · intro x
      constructor
      · intro hx
        rw [getUserGroups] at hx
        obtain ⟨g2row, hg2, hg2name⟩ := List.mem_map.mp hx
        have hg2mem := (List.mem_filter.mp hg2).1
        have hg2pred := (List.mem_filter.mp hg2).2
        rw [userInGroup_replace] at hg2pred
        have hid : grp1.id = g2row.id := by simpa using hg2pred
        have : grp1 = g2row :=
          List.inj_on_of_nodup_map hnodup hmem1 hg2mem hid
        rw [← hg2name, ← this, hname1]
      · intro hx
        subst hx
        rw [getUserGroups]
        refine List.mem_map.mpr ⟨grp1, ?_, hname1⟩
        refine List.mem_filter.mpr ⟨hmem1, ?_⟩
        rw [userInGroup_replace]
        simp

theorem updateUserGroups_group_exclusivity_witness :
    ((dbTwoUsers.groups.map GroupRow.id).Nodup ∧ userExists dbTwoUsers "u" = true ∧
      ¬ ("u" : String) = "a" ∧ (∃ grp ∈ dbTwoUsers.groups, grp.name = "creator") ∧
      ¬ ("x" : String) = "y") ∧
    ((∃ e, updateUserGroups dbTwoUsers "u" [] "a" = .error e ∧ e.statusCode = 400) ∧
      (∃ e, updateUserGroups dbTwoUsers "u" ["x", "y"] "a" = .error e ∧
        e.statusCode = 400) ∧
      (∃ db2, updateUserGroups dbTwoUsers "u" ["creator"] "a" =
          .ok (getUserGroups db2 "u", db2) ∧
        ∀ x, x ∈ getUserGroups db2 "u" ↔ x = "creator")) := by
  refine ⟨⟨by decide, by decide, by decide, by decide, by decide⟩, ?_⟩
  exact updateUserGroups_group_exclusivity dbTwoUsers "u" "creator" "x" "y" "a"
    (by decide) (by decide) (by decide) (by decide) (by decide)

/-- Claim C3 counterexample: with a group name that names no existing group,
updateUserGroups succeeds (no error) yet the returned and subsequently read
group set is empty, not the singleton of the requested name — the memberships
were deleted and nothing was inserted. -/
theorem updateUserGroups_nonexistent_group_cex :
    updateUserGroups dbGhost "u" ["ghost"] "a" =
      .ok ([], { dbGhost with memberships := [] }) ∧
    ([] : List String) ≠ ["ghost"] := by
  exact ⟨rfl, by decide⟩

theorem find?_map_increment (aid : String) :
    ∀ (l : List ArticleRow) (a : ArticleRow),
    l.find? (fun x => x.id == aid) = some a →
    (l.map (fun x => if x.id == aid then { x with views := x.views + 1 } else x)).find?
      (fun x => x.id == aid) = some { a with views := a.views + 1 } := by
  intro l
  induction l with
  | nil => intro a h; simp at h
  | cons x xs ih =>
    intro a h
    rw [List.find?_cons] at h
    cases hx : (x.id == aid) with
    | true =>
      simp only [hx] at h
      injection h with h
      subst h
      have hx2 : (({ x with views := x.views + 1 } : ArticleRow).id == aid) = true := hx
      simp only [List.map_cons, hx, if_true, List.find?_cons, hx2]
    | false =>
      simp only [hx] at h
      simp only [List.map_cons, hx, Bool.false_eq_true, if_false, List.find?_cons]
      exact ih a h

/-- Claim C4 (amended): on GET /articles/:idOrSlug, only the slug-shaped path
ever touches the view counter — a published article read by slug by anyone
other than its author has its counter incremented by exactly one per read,
while the author's own reads and reads of non-published articles leave it
unchanged; a read whose parameter has uuid shape goes through getById, which
never increments for any requester. -/
theorem view_counting (db : DB) (idOrSlug : String) (requesterId : Option String) :
    (isUuidFormat idOrSlug = true → (controllerGetArticle db idOrSlug requesterId).2 = db) ∧
    (∀ aid rq, (serviceGetById db aid rq).2 = db) ∧
    (isUuidFormat idOrSlug = false → ∀ a, findArticleBySlug db idOrSlug = some a →
      ((a.status = ArticleStatus.published ∧ ¬ requesterId = some a.authorId) →
        (controllerGetArticle db idOrSlug requesterId).2 = incrementViews db a.id) ∧
      ((¬ a.status = ArticleStatus.published ∨ requesterId = some a.authorId) →
        (controllerGetArticle db idOrSlug requesterId).2 = db)) ∧
    (∀ a : ArticleRow, findArticleById db a.id = some a →
      findArticleById (incrementViews db a.id) a.id =
        some { a with views := a.views + 1 }) := by
  have hById : ∀ aid rq, (serviceGetById db aid rq).2 = db := by
    intro aid rq
    unfold serviceGetById
    cases findArticleById db aid with
    | none => rfl
    | some a =>
      dsimp only
      split
      · rfl
      · cases rq with
        | none => rfl
        | some r =>
          dsimp only
          split
          · rfl
          · rfl
  refine ⟨?_, hById, ?_, ?_⟩
  · intro hu
    rw [controllerGetArticle, if_pos hu]
    exact hById idOrSlug requesterId
  · intro hu a hfind
    rw [controllerGetArticle, if_neg (by simp [hu])]
    unfold serviceGetBySlug
    rw [hfind]
    dsimp only
    constructor
    · rintro ⟨hpub, hauth⟩
      rw [if_pos hpub]
      simp [hpub, hauth]
    · intro hcase
      rcases hcase with hnp | hauth
      · rw [if_neg hnp]
        cases requesterId with
        | none => rfl
        | some r =>
          dsimp only
          split
          · rfl
          · simp [hnp]
      · by_cases hpub : a.status = ArticleStatus.published
        · rw [if_pos hpub]
          simp [hauth]
        · rw [if_neg hpub]
          cases requesterId with
          | none => rfl
          | some r =>
            dsimp only
            split
            · rfl
            · simp [hpub]
  · intro a hfind
    rw [findArticleById] at hfind
    rw [findArticleById, incrementViews]
    exact find?_map_increment a.id db.articles a hfind

theorem view_counting_witness :
    (isUuidFormat "hello" = false ∧ findArticleBySlug dbView "hello" = some rowView ∧
      rowView.status = ArticleStatus.published ∧
      ¬ (some "r" : Option String) = some rowView.authorId) ∧
    (controllerGetArticle dbView "hello" (some "r")).2 = incrementViews dbView rowView.id :=
  ⟨⟨by decide, by decide, by decide, by decide⟩,
    ((view_counting dbView "hello" (some "r")).2.2.1 (by decide) rowView
      (by decide)).1 ⟨by decide, by decide⟩⟩

/-- Claim C4 counterexample: the very same published article, read through
GET /articles/:idOrSlug with its uuid id by a non-author, is returned (the
read succeeds) yet the store, and with it the view counter, is unchanged —
the id path never increments; only the slug path does. -/
theorem view_counting_id_read_cex :
    (controllerGetArticle dbView "11111111-1111-1111-1111-111111111111" (some "r")).2 =
      dbView ∧
    ((controllerGetArticle dbView "11111111-1111-1111-1111-111111111111"
      (some "r")).1).isSome = true ∧
    (controllerGetArticle dbView "hello" (some "r")).2 ≠ dbView := by
  exact ⟨by decide, by decide, by decide⟩

/-- Claim C6: starting from the freshly seeded store with an empty users
table, the first successful registration yields a user whose effective rights
contain the wildcard (via the administrator group, seeded with exactly the
right set containing only the wildcard), and the second successful
registration yields a user whose effective rights do not contain the
wildcard (default user group). -/
theorem bootstrap_first_user_admin (u1 e1 p1 id1 s1 t1 u2 e2 p2 id2 s2 t2 : String)
    (n1 n2 : Nat) (hu : ¬ u2 = u1) (he : ¬ e2 = e1) (hid : ¬ id2 = id1) :
    ∃ db1 db2,
      register seedDB u1 e1 p1 id1 s1 t1 n1 = .ok (id1, db1) ∧
      getUserRights db1 id1 = ["*"] ∧
      register db1 u2 e2 p2 id2 s2 t2 n2 = .ok (id2, db2) ∧
      ¬ "*" ∈ getUserRights db2 id2 := by
  have hb1 : (u1 == u2) = false := beq_eq_false_iff_ne.mpr (fun hh => hu hh.symm)
  have hb2 : (e1 == e2) = false := beq_eq_false_iff_ne.mpr (fun hh => he hh.symm)
  have hb3 : (id1 == id2) = false := beq_eq_false_iff_ne.mpr (fun hh => hid hh.symm)
  refine ⟨regDB1 u1 e1 p1 id1 s1 t1 n1, regDB2 u1 e1 p1 id1 s1 t1 n1 u2 e2 p2 id2 s2 t2 n2,
    rfl, ?_, ?_, ?_⟩
  · have huig1 : ∀ gid, userInGroup (regDB1 u1 e1 p1 id1 s1 t1 n1) id1 gid = (1 == gid) := by
      intro gid
      simp [userInGroup, regDB1]
    rw [getUserRights]
    simp only [huig1]
    rfl
  · have hcond : existsByUsernameOrEmail (regDB1 u1 e1 p1 id1 s1 t1 n1) u2 e2 = false := by
      simp [existsByUsernameOrEmail, regDB1, hb1, hb2]
    have hassign : ((regDB1 u1 e1 p1 id1 s1 t1 n1).memberships.any
        (fun m => m.userId == id2 && m.groupId == 3)) = false := by
      simp [regDB1, hb3]
    unfold register
    rw [hcond]
    simp only [Bool.false_eq_true, if_false]
    unfold assignToGroup assignUserToGroup
    have hgn : getGroupByName
        { regDB1 u1 e1 p1 id1 s1 t1 n1 with
          users := (regDB1 u1 e1 p1 id1 s1 t1 n1).users ++ [⟨id2, u2, e2, p2, u2⟩] } "user" =
        some ⟨3, "user", "User"⟩ := rfl
    simp only [List.length_cons, List.length_nil, Nat.succ_ne_zero, if_false, hgn,
      Nat.zero_add, Nat.add_zero]
    simp only [hassign, Bool.false_eq_true, if_false]
    rfl
  · have huig2 : ∀ gid,
        userInGroup (regDB2 u1 e1 p1 id1 s1 t1 n1 u2 e2 p2 id2 s2 t2 n2) id2 gid
          = (3 == gid) := by
      intro gid
      simp [userInGroup, regDB2, hb3]
    rw [getUserRights]
    simp only [huig2]
    have hr : (regDB2 u1 e1 p1 id1 s1 t1 n1 u2 e2 p2 id2 s2 t2 n2).rights = seededRights := rfl
    have hgr : (regDB2 u1 e1 p1 id1 s1 t1 n1 u2 e2 p2 id2 s2 t2 n2).groupRights =
      seededGroupRights := rfl
    rw [hr, hgr]
    decide

theorem bootstrap_first_user_admin_witness :
    (¬ ("bob" : String) = "alice" ∧ ¬ ("b@x.com" : String) = "a@x.com" ∧
      ¬ ("id2" : String) = "id1") ∧
    (∃ db1 db2, register seedDB "alice" "a@x.com" "p" "id1" "s1" "t1" 0 = .ok ("id1", db1) ∧
      getUserRights db1 "id1" = ["*"] ∧
      register db1 "bob" "b@x.com" "q" "id2" "s2" "t2" 5 = .ok ("id2", db2) ∧
      ¬ "*" ∈ getUserRights db2 "id2") :=
  ⟨⟨by decide, by decide, by decide⟩,
    bootstrap_first_user_admin "alice" "a@x.com" "p" "id1" "s1" "t1"
      "bob" "b@x.com" "q" "id2" "s2" "t2" 0 5 (by decide) (by decide) (by decide)⟩

/-! ## Decimal rendering of the slug counter

The slug uniqueness loop renders its counter with the standard decimal
printer; the lemmas below restate that printer as structural recursion and
prove it injective, which the pigeonhole argument for the loop needs. -/

theorem natChars_lt (n : Nat) (h : n < 10) : natChars n = [Nat.digitChar n] := by
  rw [natChars]
  rw [if_pos h]

theorem natChars_ge (n : Nat) (h : ¬ n < 10) :
    natChars n = natChars (n / 10) ++ [Nat.digitChar (n % 10)] := by
  rw [natChars]
  rw [if_neg h]

theorem natChars_ne_nil (n : Nat) : natChars n ≠ [] := by
  by_cases h : n < 10
  · rw [natChars_lt n h]
    simp
  · rw [natChars_ge n h]
    simp

theorem toDigitsCore_eq_natChars :
    ∀ (fuel n : Nat) (acc : List Char), n < fuel →
      Nat.toDigitsCore 10 fuel n acc = natChars n ++ acc := by
  intro fuel
  induction fuel with
  | zero => intro n acc h; omega
  | succ fuel ih =>
    intro n acc h
    rw [Nat.toDigitsCore]
    by_cases h10 : n / 10 = 0
    · have hn10 : n < 10 := by omega
      rw [if_pos h10, natChars_lt n hn10, Nat.mod_eq_of_lt hn10]
      rfl
    · have hn10 : ¬ n < 10 := by
        intro hc
        exact h10 (Nat.div_eq_of_lt hc)
      rw [if_neg h10]
      have hlt : n / 10 < fuel := by
        have : n / 10 < n := Nat.div_lt_self (by omega) (by omega)
        omega
      rw [ih (n / 10) (Nat.digitChar (n % 10) :: acc) hlt]
      rw [natChars_ge n hn10]
      simp

theorem natRepr_eq_natChars (n : Nat) : Nat.repr n = (natChars n).asString := by
  rw [Nat.repr, Nat.toDigits]
  rw [toDigitsCore_eq_natChars (n + 1) n [] (Nat.lt_succ_self n)]
  simp

theorem digitChar_inj_lt : ∀ a < 10, ∀ b < 10, Nat.digitChar a = Nat.digitChar b → a = b := by
  decide

theorem natChars_inj : ∀ n m : Nat, natChars n = natChars m → n = m := by
  intro n
  induction n using Nat.strong_induction_on with
  | _ n ih =>
    intro m h
    by_cases hn : n < 10 <;> by_cases hm : m < 10
    · rw [natChars_lt n hn, natChars_lt m hm] at h
      exact digitChar_inj_lt n hn m hm (List.singleton_injective h)
    · rw [natChars_lt n hn, natChars_ge m hm] at h
      have hlen := congrArg List.length h
      simp only [List.length_append, List.length_singleton, List.length_cons,
        List.length_nil] at hlen
      have h0 : (natChars (m / 10)).length = 0 := by omega
      exact absurd (List.length_eq_zero.mp h0) (natChars_ne_nil (m / 10))
    · rw [natChars_ge n hn, natChars_lt m hm] at h
      have hlen := congrArg List.length h
      simp only [List.length_append, List.length_singleton, List.length_cons,
        List.length_nil] at hlen
      have h0 : (natChars (n / 10)).length = 0 := by omega
      exact absurd (List.length_eq_zero.mp h0) (natChars_ne_nil (n / 10))
    · rw [natChars_ge n hn, natChars_ge m hm] at h
      have hrev := congrArg List.reverse h
      simp only [List.reverse_append, List.reverse_cons, List.reverse_nil,
        List.nil_append, List.cons_append, List.singleton_append] at hrev
      injection hrev with hd tl
      have hmod : n % 10 = m % 10 :=
        digitChar_inj_lt (n % 10) (Nat.mod_lt n (by omega)) (m % 10)
          (Nat.mod_lt m (by omega)) hd
      have hdiv : n / 10 = m / 10 := by
        have := congrArg List.reverse tl
        simp only [List.reverse_reverse] at this
        exact ih (n / 10) (Nat.div_lt_self (by omega) (by omega)) (m / 10) this
      omega

theorem natRepr_inj {n m : Nat} (h : Nat.repr n = Nat.repr m) : n = m := by
  rw [natRepr_eq_natChars, natRepr_eq_natChars] at h
  refine natChars_inj n m ?_
  have := congrArg String.data h
  simpa [List.asString] using this

theorem natRepr_length_pos (n : Nat) : 0 < (Nat.repr n).length := by
  rw [natRepr_eq_natChars]
  have := natChars_ne_nil n
  simp [List.asString, String.length]
  exact List.length_pos.mpr this

theorem string_data_ext {s t : String} (h : s.data = t.data) : s = t := by
  cases s
  cases t
  simp only at h
  rw [h]

theorem slugCandidate_zero (base : String) : slugCandidate base 0 = base := rfl

theorem slugCandidate_pos (base : String) (k : Nat) (h : ¬ k = 0) :
    slugCandidate base k = base ++ "-" ++ Nat.repr k := by
  rw [slugCandidate, if_neg h]
  rfl

theorem slugCandidate_inj (base : String) :
    ∀ j k, slugCandidate base j = slugCandidate base k → j = k := by
  have hlen : ∀ k, ¬ k = 0 → (slugCandidate base k).length =
      base.length + 1 + (Nat.repr k).length := by
    intro k hk
    rw [slugCandidate_pos base k hk]
    rw [String.length_append, String.length_append]
    rfl
  intro j k h
  by_cases hj : j = 0 <;> by_cases hk : k = 0
  · rw [hj, hk]
  · exfalso
    have := congrArg String.length h
    rw [hj, slugCandidate_zero, hlen k hk] at this
    have := natRepr_length_pos k
    omega
  · exfalso
    have := congrArg String.length h
    rw [hk, slugCandidate_zero, hlen j hj] at this
    have := natRepr_length_pos j
    omega
  · rw [slugCandidate_pos base j hj, slugCandidate_pos base k hk] at h
    have hd := congrArg String.data h
    rw [String.data_append (base ++ "-") (Nat.repr j),
      String.data_append (base ++ "-") (Nat.repr k)] at hd
    have hd2 : (Nat.repr j).data = (Nat.repr k).data := List.append_cancel_left hd
    exact natRepr_inj (string_data_ext hd2)

theorem slugExists_iff (db : DB) (s : String) :
    slugExists db s = true ↔ ∃ a ∈ db.articles, a.slug = s := by
  simp [slugExists, List.any_eq_true, beq_iff_eq]

theorem exists_free_candidate (db : DB) (base : String) :
    ∃ j, j ≤ db.articles.length + 1 ∧ slugExists db (slugCandidate base j) = false := by
  by_contra hcon
  push_neg at hcon
  have hall : ∀ j : Fin (db.articles.length + 2),
      slugCandidate base j.val ∈ (db.articles.map (fun a => a.slug)).toFinset := by
    intro j
    have hj : j.val ≤ db.articles.length + 1 := by omega
    have := hcon j.val hj
    have htrue : slugExists db (slugCandidate base j.val) = true := by
      cases hx : slugExists db (slugCandidate base j.val)
      · exact absurd hx this
      · rfl
    obtain ⟨a, ha, hs⟩ := (slugExists_iff db _).mp htrue
    rw [List.mem_toFinset]
    exact List.mem_map.mpr ⟨a, ha, hs⟩
  have hinj : Set.InjOn (fun j : Fin (db.articles.length + 2) => slugCandidate base j.val)
      (Finset.univ : Finset (Fin (db.articles.length + 2))) := by
    intro a _ b _ hab
    exact Fin.ext (slugCandidate_inj base a.val b.val hab)
  have hcard := Finset.card_le_card_of_injOn
    (fun j : Fin (db.articles.length + 2) => slugCandidate base j.val)
    (fun j _ => hall j) hinj
  rw [Finset.card_univ, Fintype.card_fin] at hcard
  have hfin : (db.articles.map (fun a => a.slug)).toFinset.card ≤ db.articles.length := by
    have := List.toFinset_card_le (db.articles.map (fun a => a.slug))
    rwa [List.length_map] at this
  omega

theorem ensureUniqueSlugGo_eq (db : DB) (base : String) :
    ∀ (fuel k j : Nat), k ≤ j → j ≤ k + fuel →
      slugExists db (slugCandidate base j) = false →
      (∀ i, k ≤ i → i < j → slugExists db (slugCandidate base i) = true) →
      ensureUniqueSlugGo db base fuel k = slugCandidate base j := by
  intro fuel
  induction fuel with
  | zero =>
    intro k j hkj hjk _ _
    have : j = k := by omega
    rw [this, ensureUniqueSlugGo]
  | succ fuel ih =>
    intro k j hkj hjk hfree hmin
    rw [ensureUniqueSlugGo]
    by_cases hk : slugExists db (slugCandidate base k) = true
    · rw [if_pos hk]
      have hne : ¬ j = k := by
        intro hh
        rw [hh] at hfree
        rw [hfree] at hk
        exact Bool.false_ne_true hk
      refine ih (k + 1) j (by omega) (by omega) hfree ?_
      intro i hi1 hi2
      exact hmin i (by omega) hi2
    · rw [if_neg hk]
      have : j = k := by
        by_contra hne
        have hklt : k < j := by omega
        exact hk (hmin k (Nat.le_refl k) hklt)
      rw [this]

/-- The uniqueness loop lands on the first free candidate: the result is the
candidate of some index j that no stored article carries, while every earlier
candidate collides. -/
theorem ensureUniqueSlug_spec (db : DB) (base : String) :
    ∃ j, ensureUniqueSlug db base = slugCandidate base j ∧
      slugExists db (slugCandidate base j) = false ∧
      ∀ i, i < j → slugExists db (slugCandidate base i) = true := by
  obtain ⟨j0, hj0le, hj0free⟩ := exists_free_candidate db base
  have hex : ∃ j, slugExists db (slugCandidate base j) = false := ⟨j0, hj0free⟩
  refine ⟨Nat.find hex, ?_, Nat.find_spec hex, ?_⟩
  · refine ensureUniqueSlugGo_eq db base (db.articles.length + 1) 0 (Nat.find hex)
      (Nat.zero_le _) ?_ (Nat.find_spec hex) ?_
    · have : Nat.find hex ≤ j0 := Nat.find_le hj0free
      omega
    · intro i _ hi
      have := Nat.find_min hex hi
      cases hx : slugExists db (slugCandidate base i)
      · exact absurd hx this
      · rfl
  · intro i hi
    have := Nat.find_min hex hi
    cases hx : slugExists db (slugCandidate base i)
    · exact absurd hx this
    · rfl

theorem find?_append_none {l1 l2 : List ArticleRow} {p : ArticleRow → Bool}
    (h : l1.find? p = none) : (l1 ++ l2).find? p = l2.find? p := by
  rw [List.find?_append, h]
  rfl

theorem serviceCreateArticle_eq (db : DB) (userId : String) (input : CreateArticleInput)
    (newId : String) (now : Nat)
    (hc : canCreateArticles db userId = true)
    (hf : findArticleById db newId = none)
    (hs : input.slug = none) :
    serviceCreateArticle db userId input newId now =
      .ok (mkArticleResponse
          (createdRow userId input newId (ensureUniqueSlug db (generateSlug input.title)) now)
          (createdRow userId input newId
            (ensureUniqueSlug db (generateSlug input.title)) now).views,
        repoCreateArticle db newId userId input.title
          (ensureUniqueSlug db (generateSlug input.title)) input.headerImage input.excerpt
          input.content (input.status.getD ArticleStatus.draft) now) := by
  have hrow : ∀ slug,
      (repoCreateArticle db newId userId input.title slug input.headerImage input.excerpt
        input.content (input.status.getD ArticleStatus.draft) now).articles =
      db.articles ++ [createdRow userId input newId slug now] := by
    intro slug
    rfl
  have hfind1 : ∀ slug, findArticleById
      (repoCreateArticle db newId userId input.title slug input.headerImage input.excerpt
        input.content (input.status.getD ArticleStatus.draft) now) newId =
      some (createdRow userId input newId slug now) := by
    intro slug
    rw [findArticleById, hrow]
    rw [find?_append_none hf]
    have hb : ((createdRow userId input newId slug now).id == newId) = true := by
      simp [createdRow]
    rw [List.find?_cons]
    rw [hb]
  have hget : ∀ slug, (serviceGetById
      (repoCreateArticle db newId userId input.title slug input.headerImage input.excerpt
        input.content (input.status.getD ArticleStatus.draft) now) newId (some userId)).1 =
      some (mkArticleResponse (createdRow userId input newId slug now)
        (createdRow userId input newId slug now).views) := by
    intro slug
    unfold serviceGetById
    rw [hfind1]
    dsimp only
    by_cases hpub : (createdRow userId input newId slug now).status = ArticleStatus.published
    · rw [if_pos hpub]
    · rw [if_neg hpub]
      rw [if_neg (by simp [createdRow])]
  unfold serviceCreateArticle
  rw [if_neg (by simp [hc])]
  rw [hs]
  dsimp only
  rw [hget]

/-- Claim C9: two sequential article creations requesting the same title with
no caller-supplied slug never share a slug; the first receives the derived
slug (when it is free) and the second receives the base with the first
numeric suffix not already taken. -/
theorem slug_uniqueness (db : DB) (u1 u2 : String) (i1 i2 : CreateArticleInput)
    (id1 id2 : String) (n1 n2 : Nat)
    (hc1 : canCreateArticles db u1 = true)
    (hc2 : canCreateArticles db u2 = true)
    (hf1 : findArticleById db id1 = none)
    (hf2 : findArticleById db id2 = none)
    (hne : ¬ id2 = id1)
    (ht : i2.title = i1.title)
    (hs1 : i1.slug = none) (hs2 : i2.slug = none) :
    ∃ r1 db1 r2 db2,
      serviceCreateArticle db u1 i1 id1 n1 = .ok (r1, db1) ∧
      serviceCreateArticle db1 u2 i2 id2 n2 = .ok (r2, db2) ∧
      ¬ r1.slug = r2.slug ∧
      r1.slug = ensureUniqueSlug db (generateSlug i1.title) ∧
      (slugExists db (generateSlug i1.title) = false →
        r1.slug = generateSlug i1.title ∧
        ∃ j, 1 ≤ j ∧ r2.slug = slugCandidate (generateSlug i1.title) j ∧
          slugExists db1 (slugCandidate (generateSlug i1.title) j) = false ∧
          ∀ i, 1 ≤ i → i < j →
            slugExists db1 (slugCandidate (generateSlug i1.title) i) = true) := by
  set base := generateSlug i1.title with hbase
  set s1 := ensureUniqueSlug db base with hs1def
  set db1 := repoCreateArticle db id1 u1 i1.title s1 i1.headerImage i1.excerpt
    i1.content (i1.status.getD ArticleStatus.draft) n1 with hdb1
  have heq1 := serviceCreateArticle_eq db u1 i1 id1 n1 hc1 hf1 hs1
  have hc2' : canCreateArticles db1 u2 = true := hc2
  have hf2' : findArticleById db1 id2 = none := by
    rw [findArticleById]
    have : db1.articles = db.articles ++ [createdRow u1 i1 id1 s1 n1] := rfl
    rw [this]
    rw [find?_append_none hf2]
    rw [List.find?_cons]
    have hb : ((createdRow u1 i1 id1 s1 n1).id == id2) = false := by
      simp [createdRow]
      intro hh
      exact hne hh.symm
    rw [hb]
    rfl
  have heq2 := serviceCreateArticle_eq db1 u2 i2 id2 n2 hc2' hf2' hs2
  rw [ht] at heq2
  set s2 := ensureUniqueSlug db1 base with hs2def
  have hs1mem : slugExists db1 s1 = true := by
    have : db1.articles = db.articles ++ [createdRow u1 i1 id1 s1 n1] := rfl
    rw [slugExists, this]
    rw [List.any_append]
    simp [createdRow]
  obtain ⟨j2, hj2eq, hj2free, hj2min⟩ := ensureUniqueSlug_spec db1 base
  have hs2ne : ¬ s1 = s2 := by
    intro hh
    rw [hh] at hs1mem
    rw [hs2def] at hs1mem
    rw [hj2eq] at hs1mem
    rw [hj2free] at hs1mem
    exact Bool.false_ne_true hs1mem
  refine ⟨_, _, _, _, heq1, heq2, ?_, rfl, ?_⟩
  · simpa [mkArticleResponse, createdRow] using hs2ne
  · intro hfresh
    obtain ⟨j1, hj1eq, hj1free, hj1min⟩ := ensureUniqueSlug_spec db base
    have hj1zero : j1 = 0 := by
      by_contra hj
      have := hj1min 0 (by omega)
      rw [slugCandidate_zero] at this
      rw [hfresh] at this
      exact Bool.false_ne_true this
    have hs1base : s1 = base := by
      rw [hs1def, hj1eq, hj1zero, slugCandidate_zero]
    have hj2pos : 1 ≤ j2 := by
      by_contra hj
      have hj0 : j2 = 0 := by omega
      rw [hj0, slugCandidate_zero] at hj2free
      rw [← hs1base] at hj2free
      rw [hs1mem] at hj2free
      exact Bool.false_ne_true hj2free.symm
    refine ⟨by simpa [mkArticleResponse, createdRow] using hs1base,
      j2, hj2pos, ?_, hj2free, fun i _ hi => hj2min i hi⟩
    simpa [mkArticleResponse, createdRow, hs2def] using hj2eq

theorem slug_uniqueness_witness :
    (canCreateArticles dbCreator "b" = true ∧ findArticleById dbCreator "a1" = none ∧
      findArticleById dbCreator "a2" = none ∧ ¬ ("a2" : String) = "a1") ∧
    (∃ r1 db1 r2 db2,
      serviceCreateArticle dbCreator "b" articleInput "a1" 0 = .ok (r1, db1) ∧
      serviceCreateArticle db1 "b" articleInput "a2" 0 = .ok (r2, db2) ∧
      ¬ r1.slug = r2.slug ∧
      r1.slug = ensureUniqueSlug dbCreator (generateSlug articleInput.title) ∧
      (slugExists dbCreator (generateSlug articleInput.title) = false →
        r1.slug = generateSlug articleInput.title ∧
        ∃ j, 1 ≤ j ∧ r2.slug = slugCandidate (generateSlug articleInput.title) j ∧
          slugExists db1 (slugCandidate (generateSlug articleInput.title) j) = false ∧
          ∀ i, 1 ≤ i → i < j →
            slugExists db1 (slugCandidate (generateSlug articleInput.title) i) = true)) :=
  ⟨⟨by decide, by decide, by decide, by decide⟩,
    slug_uniqueness dbCreator "b" "b" articleInput articleInput "a1" "a2" 0 0
      (by decide) (by decide) (by decide) (by decide) (by decide) rfl rfl rfl⟩

end PbcRed
